import Mathlib

set_option maxRecDepth 8000

/-!
Verification of the voice-notes speech-transcription session manager.

The repository contains several implementations of the `useSpeechRecognition`
hook side by side:

* the basic local-engine hook (`src/hooks/useSpeechRecognition.js`), whose
  `onresult` handler appends every final segment (plus a trailing space) to
  `finalTranscriptRef` and exposes `transcript = finalTranscriptRef.trim()`;
* the same hook extended with `checkAndPushInterim`, an effect that
  force-flushes long interim transcripts (length > 200, or length > 50 and
  more than 10 s since the last push) to an auto-push callback, also
  appending the flushed text to the committed transcript;
* a "robust" hook with `initializeRecognition` / `restartRecognition`
  (exponential backoff, consecutive-error budget of 5, per-segment auto-push,
  and a length-150 interim flush that does not touch the committed
  transcript);
* a WebSocket (AssemblyAI) hook whose `onmessage` handler replaces the
  transcript with each end-of-turn message instead of appending.

Each variant is embedded below as a pure state-transition function, and the
claimed properties are settled against these embeddings.

JavaScript's `String.prototype.trim` is modelled by `jsTrim` (strip leading
and trailing whitespace), since the embedding treats it as a primitive.
-/

/-- Model of JavaScript `String.prototype.trim`: remove leading and trailing
whitespace characters. -/
def jsTrim (s : String) : String :=
  String.mk (((s.data.dropWhile Char.isWhitespace).reverse.dropWhile Char.isWhitespace).reverse)

/-- One entry of a `SpeechRecognitionEvent`'s result list, as read by the
`onresult` handlers: `result.isFinal` and `result[0].transcript`. -/
structure SRResult where
  isFinal : Bool
  transcript : String

/-- The slice `event.results[event.resultIndex ..]` processed by one
`onresult` invocation. -/
def SREvent : Type := List SRResult

/-- The `finalSegment` accumulator of the `onresult` loop: concatenation of
`transcriptPart + ' '` over the final results of the event. -/
def finalSegmentOf (ev : SREvent) : String :=
  ev.foldl (fun acc r => if r.isFinal then acc ++ r.transcript ++ " " else acc) ""

/-- The `newInterimTranscript` accumulator of the `onresult` loop:
concatenation of `transcriptPart` over the non-final results of the event. -/
def interimOf (ev : SREvent) : String :=
  ev.foldl (fun acc r => if r.isFinal then acc else acc ++ r.transcript) ""

/-- A recognition event in the sense of the design document: either a
Partial (interim) or a Final update carrying a text. -/
inductive RecEvent where
  | interimEv (text : String)
  | finalEv (text : String)

/-- A spec-level `RecEvent` delivered as a one-result `onresult` event. -/
def toSR : RecEvent → SREvent
  | RecEvent.finalEv t => [⟨true, t⟩]
  | RecEvent.interimEv t => [⟨false, t⟩]

/-- Spec-side definition (from the spec's words, for comparison): the
concatenation of the text of each Final event, each followed by a single
space separator, in order. -/
def specFinalConcat : List RecEvent → String
  | [] => ""
  | RecEvent.finalEv t :: rest => t ++ " " ++ specFinalConcat rest
  | RecEvent.interimEv _ :: rest => specFinalConcat rest

/-- Spec-side definition (from the spec's words, for comparison): the trimmed
concatenation of the Final texts with single-space separators. -/
def specCommitted (evs : List RecEvent) : String :=
  jsTrim (specFinalConcat evs)

/-- State of the basic local-engine hook: `finalTranscriptRef.current`, the
`transcript` state, the `interimTranscript` state and `latestFinalSegment`. -/
structure BasicTState where
  finalRef : String
  transcript : String
  interim : String
  latestFinal : String

/-- The `onresult` handler of the basic hook
(`src/hooks/useSpeechRecognition.js`): if the event carries final text,
append `finalSegment` to `finalTranscriptRef` and expose its trim as
`transcript`; always replace the interim transcript. -/
def stepBasic (s : BasicTState) (ev : SREvent) : BasicTState :=
  let fs := finalSegmentOf ev
  let ni := interimOf ev
  if fs ≠ "" then
    { finalRef := s.finalRef ++ fs
      transcript := jsTrim (s.finalRef ++ fs)
      interim := ni
      latestFinal := jsTrim fs }
  else
    { s with interim := ni }

/-- Initial transcript state of the basic hook. -/
def initBasic : BasicTState :=
  { finalRef := "", transcript := "", interim := "", latestFinal := "" }

/-- Run the basic hook on a sequence of spec-level recognition events,
in arrival order. -/
def runBasic (evs : List RecEvent) : BasicTState :=
  (evs.map toSR).foldl stepBasic initBasic

/-- One inbound message of the WebSocket hook: a `Turn` object with
`end_of_turn` and `transcript` fields. -/
structure TurnMessage where
  end_of_turn : Bool
  transcript : String

/-- State of the WebSocket hook: the `transcript` and `interimTranscript`
state variables. -/
structure SocketState where
  transcript : String
  interim : String

/-- The `onmessage` handler of the WebSocket hook: an end-of-turn message
with non-empty transcript replaces `transcript` and clears the interim; a
non-final message with non-empty transcript replaces the interim. -/
def onSocketMessage (s : SocketState) (m : TurnMessage) : SocketState :=
  if m.end_of_turn = true ∧ m.transcript ≠ "" then
    { transcript := m.transcript, interim := "" }
  else if m.end_of_turn = false ∧ m.transcript ≠ "" then
    { s with interim := m.transcript }
  else s

/-- A spec-level `RecEvent` delivered as a WebSocket `Turn` message. -/
def toTurn : RecEvent → TurnMessage
  | RecEvent.finalEv t => ⟨true, t⟩
  | RecEvent.interimEv t => ⟨false, t⟩

/-- Initial state of the WebSocket hook. -/
def initSocket : SocketState :=
  { transcript := "", interim := "" }

/-- Run the WebSocket hook on a sequence of spec-level recognition events. -/
def runSocket (evs : List RecEvent) : SocketState :=
  (evs.map toTurn).foldl onSocketMessage initSocket

/-- The text of the last Final event with non-empty text, starting from
`cur`; this is what the WebSocket hook's replace-semantics keeps. -/
def lastFinalFrom (cur : String) : List RecEvent → String
  | [] => cur
  | RecEvent.finalEv t :: rest => lastFinalFrom (if t ≠ "" then t else cur) rest
  | RecEvent.interimEv _ :: rest => lastFinalFrom cur rest

/-- The text of the last non-empty Final event of a sequence (empty if none). -/
def lastFinalText (evs : List RecEvent) : String :=
  lastFinalFrom "" evs

theorem strDataAppend (a b : String) : (a ++ b).data = a.data ++ b.data :=
  String.data_append a b

theorem strAppendNil (a : String) : a ++ "" = a :=
  String.append_empty a

theorem strNilAppend (a : String) : "" ++ a = a :=
  String.empty_append a

theorem strAppendAssoc (a b c : String) : a ++ b ++ c = a ++ (b ++ c) :=
  String.append_assoc a b c

theorem strSpaceNe (t : String) : t ++ " " ≠ "" := by
  intro h
  have hl := congrArg String.length h
  rw [String.length_append] at hl
  rw [show (" " : String).length = 1 from rfl, show ("" : String).length = 0 from rfl] at hl
  omega

theorem lenNeEmpty (t : String) (n : Nat) (hn : n ≠ 0) (h : t.length = n) : t ≠ "" := by
  intro he
  rw [he, show ("" : String).length = 0 from rfl] at h
  exact hn h.symm

theorem finalSegmentOf_final (t : String) :
    finalSegmentOf (toSR (RecEvent.finalEv t)) = t ++ " " := by
  simp [finalSegmentOf, toSR, List.foldl, strNilAppend]

theorem finalSegmentOf_interim (t : String) :
    finalSegmentOf (toSR (RecEvent.interimEv t)) = "" := by
  simp [finalSegmentOf, toSR, List.foldl]

theorem interimOf_final (t : String) :
    interimOf (toSR (RecEvent.finalEv t)) = "" := by
  simp [interimOf, toSR, List.foldl]

theorem interimOf_interim (t : String) :
    interimOf (toSR (RecEvent.interimEv t)) = t := by
  simp [interimOf, toSR, List.foldl, strNilAppend]

/-- Invariant run lemma for the basic hook: the committed ref accumulates the
concatenation of Final texts (each with a trailing space), and the exposed
transcript is its trim. -/
theorem runBasic_invariant (evs : List RecEvent) :
    ∀ s : BasicTState, s.transcript = jsTrim s.finalRef →
      ((evs.map toSR).foldl stepBasic s).finalRef = s.finalRef ++ specFinalConcat evs ∧
      ((evs.map toSR).foldl stepBasic s).transcript
        = jsTrim (s.finalRef ++ specFinalConcat evs) := by
  induction evs with
  | nil =>
    intro s hs
    simp [specFinalConcat, strAppendNil, hs]
  | cons e rest ih =>
    intro s hs
    cases e with
    | finalEv t =>
      have hstep : stepBasic s (toSR (RecEvent.finalEv t))
          = { finalRef := s.finalRef ++ (t ++ " ")
              transcript := jsTrim (s.finalRef ++ (t ++ " "))
              interim := ""
              latestFinal := jsTrim (t ++ " ") } := by
        simp [stepBasic, finalSegmentOf_final, interimOf_final, strSpaceNe t]
      have ih' := ih { finalRef := s.finalRef ++ (t ++ " ")
                       transcript := jsTrim (s.finalRef ++ (t ++ " "))
                       interim := ""
                       latestFinal := jsTrim (t ++ " ") } rfl
      simp only [List.map_cons, List.foldl_cons, hstep]
      simp only [specFinalConcat]
      constructor
      · rw [ih'.1, strAppendAssoc, strAppendAssoc]
      · rw [ih'.2, strAppendAssoc, strAppendAssoc]
    | interimEv t =>
      have hstep : stepBasic s (toSR (RecEvent.interimEv t)) = { s with interim := t } := by
        simp [stepBasic, finalSegmentOf_interim, interimOf_interim]
      have ih' := ih { s with interim := t } (by simpa using hs)
      simp only [List.map_cons, List.foldl_cons, hstep]
      simpa [specFinalConcat] using ih'

/-- Run lemma for the WebSocket hook: the exposed transcript is the text of
the last non-empty Final event. -/
theorem runSocket_lastFinal (evs : List RecEvent) :
    ∀ s : SocketState,
      ((evs.map toTurn).foldl onSocketMessage s).transcript = lastFinalFrom s.transcript evs := by
  induction evs with
  | nil => intro s; simp [lastFinalFrom]
  | cons e rest ih =>
    intro s
    cases e with
    | finalEv t =>
      by_cases ht : t = ""
      · subst ht
        have hstep : onSocketMessage s (toTurn (RecEvent.finalEv "")) = s := by
          simp [onSocketMessage, toTurn]
        simp only [List.map_cons, List.foldl_cons, hstep, lastFinalFrom]
        simpa using ih s
      · have hstep : onSocketMessage s (toTurn (RecEvent.finalEv t))
            = { transcript := t, interim := "" } := by
          simp [onSocketMessage, toTurn, ht]
        simp only [List.map_cons, List.foldl_cons, hstep, lastFinalFrom]
        simpa [ht] using ih { transcript := t, interim := "" }
    | interimEv t =>
      have hstep : (onSocketMessage s (toTurn (RecEvent.interimEv t))).transcript
          = s.transcript := by
        by_cases ht : t = "" <;> simp [onSocketMessage, toTurn, ht]
      have hstep' : onSocketMessage s (toTurn (RecEvent.interimEv t))
          = { s with interim := (onSocketMessage s (toTurn (RecEvent.interimEv t))).interim } := by
        by_cases ht : t = "" <;> simp [onSocketMessage, toTurn, ht]
      simp only [List.map_cons, List.foldl_cons, lastFinalFrom]
      rw [hstep']
      simpa using ih { s with interim := (onSocketMessage s (toTurn (RecEvent.interimEv t))).interim }

/-- C1 counterexample: in the WebSocket hook (`onmessage`), two Final events
"ab" then "cd" leave the committed transcript equal to "cd", not to the
trimmed space-separated concatenation "ab cd"; the claim fails on this
variant of the hook. -/
theorem c1_socket_counterexample :
    (runSocket [RecEvent.finalEv "ab", RecEvent.finalEv "cd"]).transcript = "cd" ∧
    specCommitted [RecEvent.finalEv "ab", RecEvent.finalEv "cd"] = "ab cd" ∧
    (runSocket [RecEvent.finalEv "ab", RecEvent.finalEv "cd"]).transcript
      ≠ specCommitted [RecEvent.finalEv "ab", RecEvent.finalEv "cd"] := by
  refine ⟨by decide, by decide, by decide⟩

/-- C1 (amended): for the basic local-engine hook, after any sequence of
recognition events the exposed committed transcript equals the trimmed
concatenation of the Final texts, each followed by a single space separator,
regardless of interleaved Partial events; the WebSocket hook instead exposes
only the text of the last non-empty Final event. -/
theorem c1_committed_concat (evs : List RecEvent) :
    (runBasic evs).transcript = specCommitted evs ∧
    (runSocket evs).transcript = lastFinalText evs := by
  constructor
  · have h := runBasic_invariant evs initBasic (by decide)
    rw [runBasic]
    rw [h.2]
    rw [specCommitted]
    have : initBasic.finalRef = "" := rfl
    rw [this, strNilAppend]
  · have h := runSocket_lastFinal evs initSocket
    rw [runSocket, lastFinalText]
    exact h

/-- State of the auto-push hook variant: the basic transcript state plus
`lastPushTimeRef`, the recorded auto-push callback invocations, whether a
callback is set, and `isListening`. Times are in milliseconds. -/
structure PushState where
  finalRef : String
  transcript : String
  interim : String
  latestFinal : String
  lastPush : Nat
  pushes : List String
  callbackSet : Bool
  isListening : Bool

/-- `checkAndPushInterim` of the auto-push hook: if the interim transcript is
non-empty and either longer than 200 characters, or longer than 50
characters with more than 10 s since the last push, and a callback is set,
then push the interim text, record the push time, clear the interim, and
append the text (plus a space) to the committed transcript. -/
def checkAndPushInterim (now : Nat) (s : PushState) : PushState :=
  if s.interim ≠ "" ∧
      (200 < s.interim.length ∨ (50 < s.interim.length ∧ 10000 < now - s.lastPush)) then
    if s.callbackSet = true then
      { s with pushes := s.pushes ++ [s.interim]
               lastPush := now
               interim := ""
               finalRef := s.finalRef ++ s.interim ++ " "
               transcript := jsTrim (s.finalRef ++ s.interim ++ " ") }
    else s
  else s

/-- Processing one `onresult` event in the auto-push hook, followed by the
effect that runs `checkAndPushInterim` whenever the hook is listening and
the interim transcript is non-empty. -/
def stepPushEvent (now : Nat) (s : PushState) (ev : SREvent) : PushState :=
  let fs := finalSegmentOf ev
  let ni := interimOf ev
  let s1 :=
    if fs ≠ "" then
      { s with finalRef := s.finalRef ++ fs
               transcript := jsTrim (s.finalRef ++ fs)
               latestFinal := jsTrim fs
               interim := ni }
    else { s with interim := ni }
  if s1.isListening = true ∧ s1.interim ≠ "" then checkAndPushInterim now s1 else s1

/-- Initial state of the auto-push hook, listening and with a callback set. -/
def initPush : PushState :=
  { finalRef := "", transcript := "", interim := "", latestFinal := ""
    lastPush := 0, pushes := [], callbackSet := true, isListening := true }

/-- A concrete string of `n` letters. -/
def aChars (n : Nat) : String :=
  String.mk (List.replicate n 'a')

/-- State of the robust hook variant: transcript state plus the recorded
auto-push callback invocations and whether a callback is set. -/
structure RobustTState where
  finalRef : String
  transcript : String
  interim : String
  latestFinal : String
  pushes : List String
  callbackSet : Bool

/-- The per-result auto-pushes made inside the robust `onresult` loop: each
final result with non-empty trimmed text is pushed immediately, trimmed. -/
def robustLoopPushes (cb : Bool) (ev : SREvent) : List String :=
  ev.foldl
    (fun acc r =>
      if r.isFinal = true ∧ cb = true ∧ jsTrim r.transcript ≠ "" then
        acc ++ [jsTrim r.transcript]
      else acc) []

/-- The robust hook's `onresult` handler: push final results as they are
scanned; if the event's final segment trims non-empty, append the trimmed
segment (plus a space) to the committed transcript; replace the interim
transcript; finally, if the new interim is longer than 150 characters and a
callback is set, push the interim and clear it (without touching the
committed transcript). -/
def stepRobust (s : RobustTState) (ev : SREvent) : RobustTState :=
  let fs := finalSegmentOf ev
  let ni := interimOf ev
  let s1 := { s with pushes := s.pushes ++ robustLoopPushes s.callbackSet ev }
  let s2 :=
    if jsTrim fs ≠ "" then
      { s1 with latestFinal := jsTrim fs
                finalRef := s1.finalRef ++ jsTrim fs ++ " "
                transcript := jsTrim (s1.finalRef ++ jsTrim fs ++ " ")
                interim := ni }
    else { s1 with interim := ni }
  if 150 < ni.length ∧ s2.callbackSet = true then
    { s2 with pushes := s2.pushes ++ [ni], interim := "" }
  else s2

/-- Initial state of the robust hook, with a callback set. -/
def initRobust : RobustTState :=
  { finalRef := "", transcript := "", interim := "", latestFinal := ""
    pushes := [], callbackSet := true }

theorem jsTrim_empty : jsTrim "" = "" := by decide

theorem robustLoopPushes_interim (cb : Bool) (t : String) :
    robustLoopPushes cb (toSR (RecEvent.interimEv t)) = [] := by
  simp [robustLoopPushes, toSR]

/-- Characterization of a robust `onresult` step on a Partial-only event:
the interim is replaced, and if it is longer than 150 characters with a
callback set it is pushed and cleared; the committed text is untouched. -/
theorem stepRobust_interim (s : RobustTState) (t : String) :
    stepRobust s (toSR (RecEvent.interimEv t))
      = if 150 < t.length ∧ s.callbackSet = true then
          { s with pushes := s.pushes ++ [t], interim := "" }
        else { s with interim := t } := by
  have h1 := finalSegmentOf_interim t
  have h2 := interimOf_interim t
  have h3 := robustLoopPushes_interim s.callbackSet t
  simp only [stepRobust, h1, h2, h3, jsTrim_empty, List.append_nil]
  simp

/-- C2 counterexample: in the robust hook, a 210-character Partial event is
pushed to the callback and the interim is cleared, but nothing is appended
to the committed transcript (`finalRef` and `transcript` stay empty), so the
claim's "appends the text to the committed transcript" fails on this
variant. -/
theorem c2_robust_counterexample :
    (stepRobust initRobust (toSR (RecEvent.interimEv (aChars 210)))).pushes = [aChars 210] ∧
    (stepRobust initRobust (toSR (RecEvent.interimEv (aChars 210)))).interim = "" ∧
    (stepRobust initRobust (toSR (RecEvent.interimEv (aChars 210)))).finalRef = "" ∧
    (stepRobust initRobust (toSR (RecEvent.interimEv (aChars 210)))).transcript = "" := by
  refine ⟨by decide, by decide, by decide, by decide⟩

/-- C2 (amended): a Partial event of 210 characters is force-flushed without
waiting for a Final event in both auto-pushing variants: the auto-push hook
emits it exactly once, clears the interim, and appends it (plus a space) to
the committed transcript; the robust hook emits it exactly once and clears
the interim but leaves the committed transcript unchanged. -/
theorem c2_force_flush (t : String) (now : Nat) (sp : PushState) (sr : RobustTState)
    (hL : sp.isListening = true) (hCB : sp.callbackSet = true)
    (hrCB : sr.callbackSet = true) (hlen : t.length = 210) :
    ((stepPushEvent now sp (toSR (RecEvent.interimEv t))).pushes = sp.pushes ++ [t] ∧
     (stepPushEvent now sp (toSR (RecEvent.interimEv t))).interim = "" ∧
     (stepPushEvent now sp (toSR (RecEvent.interimEv t))).finalRef = sp.finalRef ++ t ++ " " ∧
     (stepPushEvent now sp (toSR (RecEvent.interimEv t))).lastPush = now) ∧
    ((stepRobust sr (toSR (RecEvent.interimEv t))).pushes = sr.pushes ++ [t] ∧
     (stepRobust sr (toSR (RecEvent.interimEv t))).interim = "" ∧
     (stepRobust sr (toSR (RecEvent.interimEv t))).finalRef = sr.finalRef ∧
     (stepRobust sr (toSR (RecEvent.interimEv t))).transcript = sr.transcript) := by
  have ht : t ≠ "" := lenNeEmpty t 210 (by decide) hlen
  have h200 : 200 < t.length := by rw [hlen]; decide
  have h150 : 150 < t.length := by rw [hlen]; decide
  constructor
  · simp [stepPushEvent, checkAndPushInterim, finalSegmentOf_interim, interimOf_interim,
      hL, hCB, ht, h200]
  · rw [stepRobust_interim]
    simp [hrCB, h150]

/-- C2 witness: the amended force-flush behaviour at the concrete
210-character input, from the initial states of both hooks. -/
theorem c2_force_flush_witness :
    ((stepPushEvent 5 initPush (toSR (RecEvent.interimEv (aChars 210)))).pushes
        = initPush.pushes ++ [aChars 210] ∧
     (stepPushEvent 5 initPush (toSR (RecEvent.interimEv (aChars 210)))).interim = "" ∧
     (stepPushEvent 5 initPush (toSR (RecEvent.interimEv (aChars 210)))).finalRef
        = initPush.finalRef ++ aChars 210 ++ " " ∧
     (stepPushEvent 5 initPush (toSR (RecEvent.interimEv (aChars 210)))).lastPush = 5) ∧
    ((stepRobust initRobust (toSR (RecEvent.interimEv (aChars 210)))).pushes
        = initRobust.pushes ++ [aChars 210] ∧
     (stepRobust initRobust (toSR (RecEvent.interimEv (aChars 210)))).interim = "" ∧
     (stepRobust initRobust (toSR (RecEvent.interimEv (aChars 210)))).finalRef
        = initRobust.finalRef ∧
     (stepRobust initRobust (toSR (RecEvent.interimEv (aChars 210)))).transcript
        = initRobust.transcript) :=
  c2_force_flush (aChars 210) 5 initPush initRobust rfl rfl rfl (by decide)

/-- C7 counterexample: a 60-character Partial is held as interim; more than
10 seconds later the next event tick (a short Partial "hi") does not flush
it — nothing is ever pushed, the committed transcript stays empty, and the
held text is simply replaced. There is no polling check in the code. -/
theorem c7_no_poll_counterexample :
    (stepPushEvent 0 initPush (toSR (RecEvent.interimEv (aChars 60)))).interim = aChars 60 ∧
    (stepPushEvent 0 initPush (toSR (RecEvent.interimEv (aChars 60)))).pushes = [] ∧
    (stepPushEvent 11000 (stepPushEvent 0 initPush (toSR (RecEvent.interimEv (aChars 60))))
        (toSR (RecEvent.interimEv "hi"))).pushes = [] ∧
    (stepPushEvent 11000 (stepPushEvent 0 initPush (toSR (RecEvent.interimEv (aChars 60))))
        (toSR (RecEvent.interimEv "hi"))).finalRef = "" ∧
    (stepPushEvent 11000 (stepPushEvent 0 initPush (toSR (RecEvent.interimEv (aChars 60))))
        (toSR (RecEvent.interimEv "hi"))).interim = "hi" := by
  refine ⟨by decide, by decide, by decide, by decide, by decide⟩

/-- C7 (amended): when more than 10 seconds have elapsed since the last
flush, the next Partial event that re-delivers 60 characters of text is
force-flushed at its own processing tick: the text is emitted as a committed
segment, appended (plus a space) to the committed transcript, and the
interim is cleared. The code has no polling check, so a tick must occur, and
a next event carrying 50 characters or fewer (or a Final) does not flush the
held text. -/
theorem c7_timeout_flush (t : String) (now : Nat) (s : PushState)
    (hL : s.isListening = true) (hCB : s.callbackSet = true)
    (hlen : t.length = 60) (htime : s.lastPush + 10000 < now) :
    (stepPushEvent now s (toSR (RecEvent.interimEv t))).pushes = s.pushes ++ [t] ∧
    (stepPushEvent now s (toSR (RecEvent.interimEv t))).interim = "" ∧
    (stepPushEvent now s (toSR (RecEvent.interimEv t))).finalRef = s.finalRef ++ t ++ " " ∧
    (stepPushEvent now s (toSR (RecEvent.interimEv t))).lastPush = now := by
  have ht : t ≠ "" := lenNeEmpty t 60 (by decide) hlen
  have h50 : 50 < t.length := by rw [hlen]; decide
  have hel : 10000 < now - s.lastPush := by omega
  have hcond : 200 < t.length ∨ (50 < t.length ∧ 10000 < now - s.lastPush) :=
    Or.inr ⟨h50, hel⟩
  simp [stepPushEvent, checkAndPushInterim, finalSegmentOf_interim, interimOf_interim,
    hL, hCB, ht, hcond]

/-- C7 witness: the amended timeout flush at a concrete 60-character input,
11 seconds after the initial push time. -/
theorem c7_timeout_flush_witness :
    (stepPushEvent 11000 initPush (toSR (RecEvent.interimEv (aChars 60)))).pushes
        = initPush.pushes ++ [aChars 60] ∧
    (stepPushEvent 11000 initPush (toSR (RecEvent.interimEv (aChars 60)))).interim = "" ∧
    (stepPushEvent 11000 initPush (toSR (RecEvent.interimEv (aChars 60)))).finalRef
        = initPush.finalRef ++ aChars 60 ++ " " ∧
    (stepPushEvent 11000 initPush (toSR (RecEvent.interimEv (aChars 60)))).lastPush = 11000 :=
  c7_timeout_flush (aChars 60) 11000 initPush rfl rfl (by decide) (by decide)

/-- C6 counterexample: in the WebSocket hook the committed transcript
shrinks: after Final "ab" it is "ab", and a further Final "c" replaces it by
"c", which is strictly shorter, so the previous committed transcript is not
a prefix of the new one even up to trimming. -/
theorem c6_socket_shrink_counterexample :
    (runSocket [RecEvent.finalEv "ab"]).transcript = "ab" ∧
    (onSocketMessage (runSocket [RecEvent.finalEv "ab"]) (toTurn (RecEvent.finalEv "c"))).transcript
      = "c" ∧
    (onSocketMessage (runSocket [RecEvent.finalEv "ab"]) (toTurn (RecEvent.finalEv "c"))).transcript.length
      < (runSocket [RecEvent.finalEv "ab"]).transcript.length := by
  refine ⟨by decide, by decide, by decide⟩

/-- C6 (amended): in the robust hook the committed text is append-only
within a session: every `onresult` step extends `finalTranscriptRef` by a
(possibly empty) suffix, and the exposed committed transcript is always the
trim of that append-only ref. -/
theorem c6_append_only (s : RobustTState) (ev : SREvent)
    (h : s.transcript = jsTrim s.finalRef) :
    (∃ u, (stepRobust s ev).finalRef = s.finalRef ++ u) ∧
    (stepRobust s ev).transcript = jsTrim (stepRobust s ev).finalRef := by
  by_cases hfs : jsTrim (finalSegmentOf ev) ≠ ""
  · by_cases h150 : 150 < (interimOf ev).length ∧ s.callbackSet = true
    · constructor
      · exact ⟨jsTrim (finalSegmentOf ev) ++ " ", by
          simp [stepRobust, hfs, h150, strAppendAssoc]⟩
      · simp [stepRobust, hfs, h150]
    · constructor
      · exact ⟨jsTrim (finalSegmentOf ev) ++ " ", by
          simp [stepRobust, hfs, h150, strAppendAssoc]⟩
      · simp [stepRobust, hfs, h150]
  · by_cases h150 : 150 < (interimOf ev).length ∧ s.callbackSet = true
    · constructor
      · exact ⟨"", by simp [stepRobust, hfs, h150, strAppendNil]⟩
      · simp [stepRobust, hfs, h150, h]
    · constructor
      · exact ⟨"", by simp [stepRobust, hfs, h150, strAppendNil]⟩
      · simp [stepRobust, hfs, h150, h]

/-- C6 witness: the amended append-only property at a concrete step, a Final
"hello" event from the robust hook's initial state. -/
theorem c6_append_only_witness :
    (∃ u, (stepRobust initRobust (toSR (RecEvent.finalEv "hello"))).finalRef
        = initRobust.finalRef ++ u) ∧
    (stepRobust initRobust (toSR (RecEvent.finalEv "hello"))).transcript
      = jsTrim (stepRobust initRobust (toSR (RecEvent.finalEv "hello"))).finalRef :=
  c6_append_only initRobust (toSR (RecEvent.finalEv "hello")) (by decide)

/-- State of the robust hook's restart machinery: `isListening`,
`isRestartingRef`, `consecutiveErrorsRef`, `restartDelayRef`, the surfaced
error, and the backoff delays (ms) of the restart attempts made so far. -/
structure RetryState where
  isListening : Bool
  isRestarting : Bool
  consecutiveErrors : Nat
  restartDelay : Nat
  error : Option String
  delays : List Nat

/-- `maxConsecutiveErrors` of the robust hook. -/
def maxConsecutiveErrors : Nat := 5

/-- One `restartRecognition` cycle of the robust hook: entry is guarded by
`isRestartingRef` and `isListening`; the scheduled timeout uses delay
`min restartDelay 10000`; when it fires, the start attempt either succeeds
(`ok = true`: counters reset) or throws (`ok = false`: counter incremented,
delay doubled; below the budget the nested `restartRecognition()` call is a
no-op because `isRestartingRef` is still set, at the budget the fatal error
is surfaced and `isListening` is cleared). -/
def restartCycle (ok : Bool) (s : RetryState) : RetryState :=
  if s.isRestarting = true ∨ s.isListening = false then s
  else
    let delay := min s.restartDelay 10000
    if ok then
      { s with delays := s.delays ++ [delay], consecutiveErrors := 0, restartDelay := 1000
               isRestarting := false }
    else if s.consecutiveErrors + 1 < maxConsecutiveErrors then
      { s with delays := s.delays ++ [delay], consecutiveErrors := s.consecutiveErrors + 1
               restartDelay := s.restartDelay * 2, isRestarting := false }
    else
      { s with delays := s.delays ++ [delay], consecutiveErrors := s.consecutiveErrors + 1
               restartDelay := s.restartDelay * 2
               error := some "Speech recognition failed after multiple attempts"
               isListening := false, isRestarting := false }

/-- A sequence of externally triggered restart cycles with the given start
outcomes, applied in order. -/
def runCycles (oks : List Bool) (s : RetryState) : RetryState :=
  oks.foldl (fun t ok => restartCycle ok t) s

/-- The restart state right after `startListening`: listening, zero
consecutive errors, 1 s backoff delay. -/
def initRetry : RetryState :=
  { isListening := true, isRestarting := false, consecutiveErrors := 0
    restartDelay := 1000, error := none, delays := [] }

theorem restartCycle_fatal (ok : Bool) (s : RetryState) (h : s.isListening = false) :
    restartCycle ok s = s := by
  simp [restartCycle, h]

theorem runCycles_fatal (oks : List Bool) :
    ∀ s : RetryState, s.isListening = false → runCycles oks s = s := by
  induction oks with
  | nil => intro s _h; rfl
  | cons ok rest ih =>
    intro s h
    simp only [runCycles, List.foldl_cons]
    rw [restartCycle_fatal ok s h]
    exact ih s h

theorem runCycles_append (a b : List Bool) (s : RetryState) :
    runCycles (a ++ b) s = runCycles b (runCycles a s) := by
  simp [runCycles, List.foldl_append]

theorem restartCycle_delay_bound (ok : Bool) (s : RetryState) (d : Nat)
    (hd : d ∈ (restartCycle ok s).delays) : d ∈ s.delays ∨ d ≤ 10000 := by
  simp only [restartCycle] at hd
  split at hd
  · exact Or.inl hd
  · split at hd
    · simp only [List.mem_append, List.mem_singleton] at hd
      rcases hd with h | h
      · exact Or.inl h
      · right; rw [h]; exact min_le_right _ _
    · split at hd
      · simp only [List.mem_append, List.mem_singleton] at hd
        rcases hd with h | h
        · exact Or.inl h
        · right; rw [h]; exact min_le_right _ _
      · simp only [List.mem_append, List.mem_singleton] at hd
        rcases hd with h | h
        · exact Or.inl h
        · right; rw [h]; exact min_le_right _ _

theorem runCycles_delay_bound (oks : List Bool) :
    ∀ s : RetryState, (∀ d ∈ s.delays, d ≤ 10000) →
      ∀ d ∈ (runCycles oks s).delays, d ≤ 10000 := by
  induction oks with
  | nil => intro s h; simpa [runCycles] using h
  | cons ok rest ih =>
    intro s h
    simp only [runCycles, List.foldl_cons]
    apply ih
    intro d hd
    rcases restartCycle_delay_bound ok s d hd with hmem | hle
    · exact h d hmem
    · exact hle

/-- C3 counterexample: starting from a fresh listening state, 5 consecutive
start failures already leave the controller fatal (`isListening = false`,
repeated-failure error surfaced), while after only 4 failures it is still
listening; the fatal transition happens at the 5th failure, not the 6th as
claimed. -/
theorem c3_budget_counterexample :
    (runCycles (List.replicate 5 false) initRetry).isListening = false ∧
    (runCycles (List.replicate 5 false) initRetry).error
      = some "Speech recognition failed after multiple attempts" ∧
    (runCycles (List.replicate 4 false) initRetry).isListening = true ∧
    (runCycles (List.replicate 4 false) initRetry).error = none := by
  refine ⟨by decide, by decide, by decide, by decide⟩

/-- C3 (amended): after 4 consecutive transient failures with no intervening
success, the 5th failure makes the controller enter the fatal error state:
the surfaced message indicates repeated failure, `isListening` becomes
false, and no further automatic restart attempt occurs (all later cycles,
whatever their outcomes, leave the state unchanged and schedule nothing). -/
theorem c3_retry_budget (rest : List Bool) :
    runCycles (List.replicate 5 false ++ rest) initRetry
      = runCycles (List.replicate 5 false) initRetry ∧
    (runCycles (List.replicate 5 false) initRetry).isListening = false ∧
    (runCycles (List.replicate 5 false) initRetry).error
      = some "Speech recognition failed after multiple attempts" ∧
    (runCycles (List.replicate 5 false) initRetry).delays.length = 5 := by
  have hfatal : (runCycles (List.replicate 5 false) initRetry).isListening = false := by decide
  refine ⟨?_, hfatal, by decide, by decide⟩
  rw [runCycles_append]
  exact runCycles_fatal rest _ hfatal

/-- C4: on consecutive start failures from a fresh listening state, the
backoff delays of the successive restart attempts are exactly 1 s, 2 s, 4 s,
8 s, 10 s; every scheduled delay is capped at 10 s; and a successful restart
resets the consecutive-failure counter to zero and the delay to 1 s. -/
theorem c4_backoff_sequence :
    (runCycles (List.replicate 5 false) initRetry).delays
      = [1000, 2000, 4000, 8000, 10000] ∧
    (∀ s : RetryState, s.isListening = true → s.isRestarting = false →
      (restartCycle true s).consecutiveErrors = 0 ∧
      (restartCycle true s).restartDelay = 1000) ∧
    (∀ oks : List Bool, ∀ d ∈ (runCycles oks initRetry).delays, d ≤ 10000) := by
  refine ⟨by decide, ?_, ?_⟩
  · intro s h1 h2
    constructor <;> simp [restartCycle, h1, h2]
  · intro oks
    exact runCycles_delay_bound oks initRetry (by simp [initRetry])

/-- C4 witness: a successful restart from the fresh state resets the counter
and the delay, and the delay 1000 recorded by a first failing attempt is
within the 10 s cap. -/
theorem c4_backoff_sequence_witness :
    ((restartCycle true initRetry).consecutiveErrors = 0 ∧
     (restartCycle true initRetry).restartDelay = 1000) ∧ 1000 ≤ 10000 :=
  ⟨c4_backoff_sequence.2.1 initRetry rfl rfl,
   c4_backoff_sequence.2.2 [false] 1000 (by decide)⟩

/-- Controller timer state: `isListening`, `isRestartingRef`, whether the
backoff restart timeout and the preventive-restart interval are armed, and
how many upstream start attempts have been made. -/
structure CtrlState where
  isListening : Bool
  isRestarting : Bool
  retryTimerArmed : Bool
  forceTimerArmed : Bool
  starts : Nat

/-- `stopListening` of the robust hook: clear `isListening` and
`isRestartingRef`, clear the pending restart timeout and the preventive
interval, and stop the recognition engine (not a start attempt). -/
def stopListening (s : CtrlState) : CtrlState :=
  { s with isListening := false, isRestarting := false
           retryTimerArmed := false, forceTimerArmed := false }

/-- Firing of the restart timeout: only an armed timer does anything, and a
start attempt is made only if still listening. -/
def fireRetryTimer (s : CtrlState) : CtrlState :=
  if s.retryTimerArmed = true then
    if s.isListening = true then
      { s with retryTimerArmed := false, isRestarting := false, starts := s.starts + 1 }
    else
      { s with retryTimerArmed := false, isRestarting := false }
  else s

/-- C8: calling `stopListening` while a backoff restart timer is pending
cancels the pending retry (the timer is disarmed), immediately reports the
not-listening state, and no further connection attempt occurs: firing the
(cancelled) timer afterwards changes nothing and makes no start attempt. -/
theorem c8_stop_cancels_retry (s : CtrlState) (_h : s.retryTimerArmed = true) :
    (stopListening s).isListening = false ∧
    (stopListening s).retryTimerArmed = false ∧
    fireRetryTimer (stopListening s) = stopListening s ∧
    (fireRetryTimer (stopListening s)).starts = s.starts := by
  refine ⟨rfl, rfl, ?_, ?_⟩
  · simp [fireRetryTimer, stopListening]
  · simp [fireRetryTimer, stopListening]

/-- A controller state with a 4-second backoff retry pending. -/
def pendingCtrl : CtrlState :=
  { isListening := true, isRestarting := true, retryTimerArmed := true
    forceTimerArmed := true, starts := 3 }

/-- C8 witness: stopping during the concrete pending backoff. -/
theorem c8_stop_cancels_retry_witness :
    (stopListening pendingCtrl).isListening = false ∧
    (stopListening pendingCtrl).retryTimerArmed = false ∧
    fireRetryTimer (stopListening pendingCtrl) = stopListening pendingCtrl ∧
    (fireRetryTimer (stopListening pendingCtrl)).starts = pendingCtrl.starts :=
  c8_stop_cancels_retry pendingCtrl rfl

/-- State read and written by the robust hook's `onerror` handler. -/
structure ErrState where
  isListening : Bool
  error : Option String
  consecutiveErrors : Nat
  language : String

/-- The robust hook's `onerror` switch. The result pairs the updated state
with the delay (ms) of the restart scheduled in response, if any:
`no-speech` restarts after 500 ms while listening; `audio-capture` and
`not-allowed` surface an error, clear `isListening`, and schedule nothing;
`network` surfaces an error and restarts after 2000 ms while under the
error budget; `service-not-allowed` and `language-not-supported` are fatal;
any other error restarts after 1000 ms under the budget while listening,
else is fatal with the raw error text. -/
def handleError (e : String) (s0 : ErrState) : ErrState × Option Nat :=
  let s := { s0 with consecutiveErrors := s0.consecutiveErrors + 1 }
  if e = "no-speech" then
    (s, if s.isListening = true then some 500 else none)
  else if e = "audio-capture" then
    ({ s with error := some "Microphone access denied or unavailable"
              isListening := false }, none)
  else if e = "not-allowed" then
    ({ s with error := some "Microphone permission denied", isListening := false }, none)
  else if e = "network" then
    if s.consecutiveErrors < maxConsecutiveErrors then
      ({ s with error := some "Network error - check your connection" }, some 2000)
    else
      ({ s with error := some "Network error - check your connection"
                isListening := false }, none)
  else if e = "service-not-allowed" then
    ({ s with error := some "Speech recognition service not allowed"
              isListening := false }, none)
  else if e = "language-not-supported" then
    ({ s with error := some ("Language " ++ s.language ++ " not supported")
              isListening := false }, none)
  else if s.consecutiveErrors < maxConsecutiveErrors ∧ s.isListening = true then
    (s, some 1000)
  else
    ({ s with error := some ("Speech recognition error: " ++ e), isListening := false }, none)

/-- State read and written by the basic hook's `onerror` handler. -/
structure BErrState where
  isListening : Bool
  error : Option String

/-- The basic hook's `onerror` handler: surface the raw error, and for
`no-speech`, `audio-capture` and `not-allowed` schedule `startListening`
again after 1000 ms; `isListening` is never changed. -/
def basicHandleError (e : String) (s : BErrState) : BErrState × Option Nat :=
  let s1 := { s with error := some e }
  if e = "no-speech" ∨ e = "audio-capture" ∨ e = "not-allowed" then (s1, some 1000)
  else (s1, none)

/-- The basic hook's error state while listening. -/
def initBErr : BErrState :=
  { isListening := true, error := none }

/-- C5 counterexample: in the basic hook, the permission error
`"not-allowed"` (and the device error `"audio-capture"`) schedules an
automatic restart after 1000 ms and leaves `isListening` unchanged (true),
contradicting the claim that such errors never trigger a restart and clear
`isListening`. -/
theorem c5_basic_restart_counterexample :
    (basicHandleError "not-allowed" initBErr).2 = some 1000 ∧
    (basicHandleError "not-allowed" initBErr).1.isListening = true ∧
    (basicHandleError "not-allowed" initBErr).1.error = some "not-allowed" ∧
    (basicHandleError "audio-capture" initBErr).2 = some 1000 := by
  refine ⟨by decide, by decide, by decide, by decide⟩

/-- C5 (amended): in the robust hook, microphone permission and audio device
errors are fatal: the error is surfaced, `isListening` becomes false, and no
automatic restart is scheduled; in the basic hook, the same errors leave
`isListening` unchanged and schedule a 1-second restart. -/
theorem c5_fatal_no_retry (s : ErrState) (e : String)
    (h : e = "audio-capture" ∨ e = "not-allowed") :
    (handleError e s).2 = none ∧
    (handleError e s).1.isListening = false ∧
    (handleError e s).1.error
      = some (if e = "audio-capture" then "Microphone access denied or unavailable"
              else "Microphone permission denied") := by
  rcases h with rfl | rfl <;> simp [handleError]

/-- C5 witness: the amended fatal behaviour at the concrete error
`"audio-capture"` from a listening state. -/
theorem c5_fatal_no_retry_witness :
    (handleError "audio-capture" ⟨true, none, 0, "en-US"⟩).2 = none ∧
    (handleError "audio-capture" ⟨true, none, 0, "en-US"⟩).1.isListening = false ∧
    (handleError "audio-capture" ⟨true, none, 0, "en-US"⟩).1.error
      = some (if "audio-capture" = "audio-capture"
              then "Microphone access denied or unavailable"
              else "Microphone permission denied") :=
  c5_fatal_no_retry ⟨true, none, 0, "en-US"⟩ "audio-capture" (Or.inl rfl)

/-- JavaScript truncation toward zero, the integer step of `ToInt16` applied
when a number is stored into an `Int16Array`. -/
def jsTrunc (q : ℚ) : Int :=
  if q < 0 then Int.ceil q else Int.floor q

/-- The `ToInt16` wrap: reduce the truncated integer modulo 2^16 into the
signed 16-bit range. -/
def toInt16 (n : Int) : Int :=
  if 32768 ≤ n % 65536 then n % 65536 - 65536 else n % 65536

/-- The PCM conversion in `processor.onaudioprocess`: clamp the sample to
[-1, 1] with `Math.max(-1, Math.min(1, x))`, then scale negative samples by
0x8000 = 32768 and non-negative ones by 0x7FFF = 32767, storing the result
in an `Int16Array` slot. Floating-point samples are modelled as exact
rationals. -/
def pcm16 (x : ℚ) : Int :=
  let sample := max (-1) (min 1 x)
  toInt16 (jsTrunc (if sample < 0 then sample * 32768 else sample * 32767))

theorem toInt16_id (n : Int) (h1 : -32768 ≤ n) (h2 : n ≤ 32767) : toInt16 n = n := by
  unfold toInt16
  split <;> omega

theorem ceil_bounds (q : ℚ) (h1 : (-32768 : ℚ) ≤ q) (h2 : q < 0) :
    -32768 ≤ Int.ceil q ∧ Int.ceil q ≤ 0 := by
  constructor
  · have hc : ((-32768 : ℤ) : ℚ) = (-32768 : ℚ) := by norm_num
    calc (-32768 : Int) = Int.ceil ((-32768 : ℤ) : ℚ) := (Int.ceil_intCast _).symm
      _ ≤ Int.ceil q := Int.ceil_le_ceil (by rw [hc]; exact h1)
  · have : q ≤ ((0 : ℤ) : ℚ) := by exact_mod_cast h2.le
    exact Int.ceil_le.mpr this

theorem floor_bounds (q : ℚ) (h1 : (0 : ℚ) ≤ q) (h2 : q ≤ (32767 : ℚ)) :
    0 ≤ Int.floor q ∧ Int.floor q ≤ 32767 := by
  constructor
  · exact Int.floor_nonneg.mpr h1
  · have hc : ((32767 : ℤ) : ℚ) = (32767 : ℚ) := by norm_num
    calc Int.floor q ≤ Int.floor ((32767 : ℤ) : ℚ) := Int.floor_le_floor (by rw [hc]; exact h2)
      _ = 32767 := Int.floor_intCast _

theorem pcm16_bounds (x : ℚ) : -32768 ≤ pcm16 x ∧ pcm16 x ≤ 32767 := by
  have hs1 : (-1 : ℚ) ≤ max (-1) (min 1 x) := le_max_left _ _
  have hs2 : max (-1) (min 1 x) ≤ 1 := max_le (by norm_num) (min_le_left _ _)
  by_cases hneg : max (-1) (min 1 x) < 0
  · have hplt : max (-1) (min 1 x) * 32768 < 0 :=
      mul_neg_of_neg_of_pos hneg (by norm_num)
    have hp1 : (-32768 : ℚ) ≤ max (-1) (min 1 x) * 32768 := by nlinarith
    have hb := ceil_bounds (max (-1) (min 1 x) * 32768) hp1 hplt
    have hval : pcm16 x = toInt16 (Int.ceil (max (-1) (min 1 x) * 32768)) := by
      simp [pcm16, jsTrunc, hneg, hplt]
    rw [hval, toInt16_id _ hb.1 (by omega)]
    omega
  · push_neg at hneg
    have hp1 : (0 : ℚ) ≤ max (-1) (min 1 x) * 32767 := by nlinarith
    have hp2 : max (-1) (min 1 x) * 32767 ≤ 32767 := by nlinarith
    have hb := floor_bounds (max (-1) (min 1 x) * 32767) hp1 hp2
    have hval : pcm16 x = toInt16 (Int.floor (max (-1) (min 1 x) * 32767)) := by
      simp [pcm16, jsTrunc, not_lt.mpr hneg, not_lt.mpr hp1]
    rw [hval, toInt16_id _ (by omega) hb.2]
    omega

theorem clamp_idem (x : ℚ) :
    max (-1) (min 1 (max (-1) (min 1 x))) = max (-1) (min 1 x) := by
  have hs1 : (-1 : ℚ) ≤ max (-1) (min 1 x) := le_max_left _ _
  have hs2 : max (-1) (min 1 x) ≤ 1 := max_le (by norm_num) (min_le_left _ _)
  rw [min_eq_right hs2, max_eq_right hs1]

/-- C9: for every (rational-modelled) input audio sample, the PCM conversion
clamps to [-1, 1] first (so pre-clamping changes nothing), scales negative
clamped samples by 32768 and non-negative ones by 32767, and the resulting
16-bit value always lies in [-32768, 32767]. -/
theorem c9_pcm_conversion (x : ℚ) :
    (-32768 ≤ pcm16 x ∧ pcm16 x ≤ 32767) ∧
    pcm16 x = pcm16 (max (-1) (min 1 x)) ∧
    (x < 0 → pcm16 x = toInt16 (jsTrunc (max (-1) x * 32768))) ∧
    (0 ≤ x → pcm16 x = toInt16 (jsTrunc (min 1 x * 32767))) := by
  refine ⟨pcm16_bounds x, ?_, ?_, ?_⟩
  · simp only [pcm16, clamp_idem]
  · intro hx
    have hmin : min 1 x = x := min_eq_right (by linarith)
    have hneg : max (-1) x < 0 := max_lt (by norm_num) hx
    simp only [pcm16, hmin, hneg, if_pos]
  · intro hx
    have hmax : max (-1) (min 1 x) = min 1 x :=
      max_eq_right (le_trans (by norm_num) (le_min (by norm_num) hx))
    have hnn : ¬ min 1 x < 0 := not_lt.mpr (le_min (by norm_num) hx)
    simp only [pcm16, hmax, hnn, if_neg, if_false]

/-- C9 witness: the conversion at the concrete samples -1/2 (negative
branch) and 1/2 (non-negative branch), with the range bounds at 3/2. -/
theorem c9_pcm_conversion_witness :
    (-32768 ≤ pcm16 (3/2) ∧ pcm16 (3/2) ≤ 32767) ∧
    pcm16 (-1/2) = toInt16 (jsTrunc (max (-1) (-1/2) * 32768)) ∧
    pcm16 (1/2) = toInt16 (jsTrunc (min 1 (1/2) * 32767)) :=
  ⟨(c9_pcm_conversion (3/2)).1,
   (c9_pcm_conversion (-1/2)).2.2.1 (by norm_num),
   (c9_pcm_conversion (1/2)).2.2.2 (by norm_num)⟩

/-- A note as kept by `useNotes`, restricted to the fields `appendToNote`
reads or writes. -/
structure Note where
  id : Nat
  content : String
  wordCount : Nat

/-- The word count recomputed by `appendToNote`: split on whitespace and
count the non-empty pieces. -/
def jsWordCount (s : String) : Nat :=
  ((s.split (fun c => c.isWhitespace)).filter (fun w => w ≠ "")).length

/-- `appendToNote` of `useNotes`: ignore empty text; otherwise append the
text to the matching note's content, preceded by one space when the content
is non-empty, and recompute the word count. -/
def appendToNote (noteId : Nat) (text : String) (notes : List Note) : List Note :=
  if text = "" then notes
  else
    notes.map fun n =>
      if n.id = noteId then
        { n with
          content := (if n.content ≠ "" then n.content ++ " " else "") ++ text
          wordCount := jsWordCount ((if n.content ≠ "" then n.content ++ " " else "") ++ text) }
      else n

/-- The App-level state that feeds committed final segments to the note
sink: the notes, the selected note's id, and `lastProcessedSegment`. -/
structure AppSink where
  notes : List Note
  currentNote : Option Nat
  lastProcessedSegment : String

/-- The App effect on a new `latestFinalSegment`: if the segment is
non-empty, differs from the last processed segment, and a note is selected,
append it to that note and remember it as the last processed segment. -/
def deliverSegment (seg : String) (st : AppSink) : AppSink :=
  match st.currentNote with
  | some nid =>
      if seg ≠ "" ∧ seg ≠ st.lastProcessedSegment then
        { st with notes := appendToNote nid seg st.notes, lastProcessedSegment := seg }
      else st
  | none => st

/-- C10: delivering the same final segment twice in a row appends it to the
selected note only once: the second delivery is a no-op, and in general a
segment equal to the most recently processed one is dropped. -/
theorem c10_duplicate_segment_dropped (seg : String) (st : AppSink) :
    deliverSegment seg (deliverSegment seg st) = deliverSegment seg st ∧
    (st.lastProcessedSegment = seg → deliverSegment seg st = st) := by
  constructor
  · cases hc : st.currentNote with
    | none => simp [deliverSegment, hc]
    | some nid =>
      by_cases hg : seg ≠ "" ∧ seg ≠ st.lastProcessedSegment
      · have h1 : deliverSegment seg st
            = { st with notes := appendToNote nid seg st.notes
                        lastProcessedSegment := seg } := by
          simp [deliverSegment, hc, hg]
        rw [h1]
        simp [deliverSegment, hc]
      · have h1 : deliverSegment seg st = st := by
          simp only [deliverSegment, hc]
          rw [if_neg hg]
        rw [h1, h1]
  · intro h
    cases hc : st.currentNote with
    | none => simp [deliverSegment, hc]
    | some nid => simp [deliverSegment, hc, h]

/-- A concrete selected note and sink state whose last processed segment is
"hello". -/
def demoSink : AppSink :=
  { notes := [{ id := 1, content := "", wordCount := 0 }]
    currentNote := some 1
    lastProcessedSegment := "hello" }

/-- C10 witness: double delivery of "hello" equals single delivery, and a
delivery equal to the last processed segment leaves the state unchanged. -/
theorem c10_duplicate_segment_dropped_witness :
    deliverSegment "hello" (deliverSegment "hello" demoSink)
      = deliverSegment "hello" demoSink ∧
    deliverSegment "hello" demoSink = demoSink :=
  ⟨(c10_duplicate_segment_dropped "hello" demoSink).1,
   (c10_duplicate_segment_dropped "hello" demoSink).2 rfl⟩
